import Mathlib

/-!
Verification of the taillight2 projection / filter / render / mask pipeline
(`src/apps/taillight2/main.cpp`) against its specification.

The geometry is embedded over `ℝ` (the C++ code computes in `float`; the spec
states its properties "within floating-point epsilon", which we read as the
idealised real-number semantics).  Matrices are Mathlib matrices over `Fin`
index types; the fixed calibration constants are transcribed digit for digit
from the source.
-/

open scoped Matrix

namespace Taillight

/-- The fixed extrinsic matrix `CalibParams::RT` (main.cpp lines 19-24). -/
noncomputable def CalibRT : Matrix (Fin 4) (Fin 4) ℝ :=
  !![-0.005317, 0.003402, 0.999980, 1.624150;
     -0.999920, -0.011526, -0.005277, 0.296660;
     0.011508, -0.999928, 0.003463, 1.457150;
     0, 0, 0, 1]

/-- The fixed intrinsic matrix `CalibParams::K` (main.cpp lines 25-29). -/
noncomputable def CalibK : Matrix (Fin 3) (Fin 3) ℝ :=
  !![819.162645, 0, 640;
     0, 819.162645, 240;
     0, 0, 1]

/-- `RT.inverse().topRows(3)`: the first three rows of the inverse of `RT`. -/
noncomputable def RTinvTop : Matrix (Fin 3) (Fin 4) ℝ :=
  (CalibRT⁻¹).submatrix Fin.castSucc id

/-- The derived projection `CalibParams::P = K * RT.inverse().topRows(3)`
(main.cpp line 30). -/
noncomputable def CalibP : Matrix (Fin 3) (Fin 4) ℝ :=
  CalibK * RTinvTop

/-- One raw track row of the input JSON: `[classId, trackId, x, y, z, l, w, h, yaw]`
(main.cpp lines 39-47). -/
structure Row where
  classId : ℤ
  trackId : ℤ
  x : ℝ
  y : ℝ
  z : ℝ
  l : ℝ
  w : ℝ
  h : ℝ
  yaw : ℝ

/-- The canonical sign matrix written into `mCorners3D` (main.cpp lines 53-55). -/
noncomputable def cornerSigns : Matrix (Fin 3) (Fin 8) ℝ :=
  !![-1, -1, -1, -1, 1, 1, 1, 1;
     -1, -1, 1, 1, -1, -1, 1, 1;
     -1, 1, -1, 1, -1, 1, -1, 1]

/-- The extents vector `mLwh` of a row. -/
noncomputable def lwhOf (r : Row) : Fin 3 → ℝ := ![r.l, r.w, r.h]

/-- The center vector `mXyzCenter` of a row. -/
noncomputable def centerOf (r : Row) : Fin 3 → ℝ := ![r.x, r.y, r.z]

/-- The corners after the axis-wise scaling
`mCorners3D.array().colwise() *= (0.5 * mLwh.array())` (main.cpp line 57),
i.e. the box corners in the box's local frame before rotation/translation. -/
noncomputable def cornersLocal (r : Row) : Matrix (Fin 3) (Fin 8) ℝ :=
  fun i j => cornerSigns i j * (0.5 * lwhOf r i)

/-- The world-frame corners `mCorners3D` after
`Translation3f(mXyzCenter) * AngleAxisf(mYaw, (0,0,1))` is applied
(main.cpp lines 60-62): right-handed rotation by `yaw` about the vertical
axis, followed by translation by the center. -/
noncomputable def corners3D (r : Row) : Matrix (Fin 3) (Fin 8) ℝ :=
  fun i j =>
    ![Real.cos r.yaw * cornersLocal r 0 j - Real.sin r.yaw * cornersLocal r 1 j + r.x,
      Real.sin r.yaw * cornersLocal r 0 j + Real.cos r.yaw * cornersLocal r 1 j + r.y,
      cornersLocal r 2 j + r.z] i

/-- `(P * p.homogeneous()).hnormalized()` for a single 3D point: append 1,
multiply by the 3x4 projection, divide the first two coordinates by the
third (main.cpp line 65). -/
noncomputable def projectPoint (p : Fin 3 → ℝ) : Fin 2 → ℝ :=
  fun i =>
    (∑ k, CalibP (Fin.castSucc i) k * ![p 0, p 1, p 2, 1] k) /
    (∑ k, CalibP 2 k * ![p 0, p 1, p 2, 1] k)

/-- The projected pixel corners `mCorners2D` (main.cpp line 65). -/
noncomputable def corners2D (r : Row) : Matrix (Fin 2) (Fin 8) ℝ :=
  fun i j => projectPoint (fun a => corners3D r a j) i

/-- `mDist = mCorners3D.topRows(2).colwise().norm().minCoeff()`
(main.cpp line 70): minimum over the 8 corners of the Euclidean norm of the
corner's ground-plane (x, y) coordinates. -/
noncomputable def mDistOf (r : Row) : ℝ :=
  Finset.univ.inf' Finset.univ_nonempty
    (fun j : Fin 8 => Real.sqrt ((corners3D r 0 j) ^ 2 + (corners3D r 1 j) ^ 2))

/-- The state of one constructed `Instance` (main.cpp lines 33-143). -/
structure Instance where
  mClassId : ℤ
  mTrackId : ℤ
  mXyzCenter : Fin 3 → ℝ
  mLwh : Fin 3 → ℝ
  mYaw : ℝ
  mCorners3D : Matrix (Fin 3) (Fin 8) ℝ
  mCorners2D : Matrix (Fin 2) (Fin 8) ℝ
  mDist : ℝ

/-- The constructor `Instance::Instance(inputRow)` (main.cpp lines 35-71). -/
noncomputable def mkInstance (r : Row) : Instance where
  mClassId := r.classId
  mTrackId := r.trackId
  mXyzCenter := centerOf r
  mLwh := lwhOf r
  mYaw := r.yaw
  mCorners3D := corners3D r
  mCorners2D := corners2D r
  mDist := mDistOf r

/-- `Instance::isCornersInImage(imgW, imgH)` (main.cpp lines 73-84): every
corner must satisfy `0 < u < imgW`, `0 < v < imgH` and world `x > 2`. -/
def isCornersInImage (inst : Instance) (imgW imgH : ℤ) : Prop :=
  ∀ j : Fin 8,
    inst.mCorners2D 0 j > 0 ∧ inst.mCorners2D 0 j < imgW ∧
    inst.mCorners2D 1 j > 0 ∧ inst.mCorners2D 1 j < imgH ∧
    inst.mCorners3D 0 j > 2

/-- The per-frame region-of-interest drop condition (main.cpp lines 161-169):
a raw row is skipped (no instance constructed) iff its class id is 2, or its
forward coordinate is outside [4, 40], or its lateral coordinate exceeds 10
in absolute value. -/
def roiDrop (r : Row) : Prop :=
  r.classId = 2 ∨ r.x < 4 ∨ r.x > 40 ∨ |r.y| > 10

open Classical in
/-- The surviving rows of one frame, in input order (main.cpp lines 159-173). -/
noncomputable def roiSurvivors (rows : List Row) : List Row :=
  rows.filter (fun r => decide (¬ roiDrop r))

/-- The guarantee `std::sort` gives for the comparator
`lhs.dist() < rhs.dist()` (main.cpp lines 176-178): the output is a
permutation of the input that is sorted by non-decreasing `mDist`.
`std::sort` promises nothing more — in particular not stability. -/
def sortContract (input output : List Instance) : Prop :=
  input.Perm output ∧ output.Pairwise (fun a b => a.mDist ≤ b.mDist)

/-- A pixel of a canvas, addressed by integer column and row. -/
abbrev Pix := ℤ × ℤ

/-- C++ `static_cast<int>` on a floating value: truncation toward zero. -/
noncomputable def cppTrunc (r : ℝ) : ℤ := if 0 ≤ r then ⌊r⌋ else ⌈r⌉

/-- The rounded pixel corner `cv::Point{static_cast<int>(u + 0.5),
static_cast<int>(v + 0.5)}` built in `Instance::getMask` (main.cpp
lines 120-123). -/
noncomputable def roundedCorner (inst : Instance) (j : Fin 8) : Pix :=
  (cppTrunc (inst.mCorners2D 0 j + 0.5), cppTrunc (inst.mCorners2D 1 j + 0.5))

/-- Modelled from the spec: the bodies of `cv::convexHull` and
`cv::fillConvexPoly` (OpenCV, not in this repository) are specified as
"compute the convex hull of all 8 projected corners and fill its interior
with a constant marker value"; the filled region is the set of integer
pixels lying in the convex hull of the 8 rounded projected corners. -/
def fillSet (inst : Instance) : Set Pix :=
  {p | ((p.1 : ℝ), (p.2 : ℝ)) ∈
    convexHull ℝ {q : ℝ × ℝ |
      ∃ j : Fin 8, q = (((roundedCorner inst j).1 : ℝ), ((roundedCorner inst j).2 : ℝ))}}

/-- The constant marker value `cv::Scalar{1.0}` written by
`cv::fillConvexPoly` (main.cpp line 126). -/
def maskMarker : ℝ := 1

open Classical in
/-- `Instance::getMask(img)` (main.cpp lines 118-127): overwrite every pixel
of the filled region with the constant marker, leaving the rest of the
canvas unchanged. -/
noncomputable def getMask (inst : Instance) (m : Pix → ℝ) : Pix → ℝ :=
  fun p => if p ∈ fillSet inst then maskMarker else m p

/-- The mask canvas after rasterizing the instances in list order, starting
from the all-zero canvas `cv::Mat{rows, cols, CV_32FC1, cv::Scalar(0)}`
(main.cpp lines 192-195). -/
noncomputable def maskAfter (l : List Instance) : Pix → ℝ :=
  l.foldl (fun m inst => getMask inst m) (fun _ => 0)

/-- Scenario A of the spec: `center=(10,0,1)`, `extents=(4,2,1.5)`, `yaw=0`. -/
noncomputable def scenarioRow : Row := ⟨0, 0, 10, 0, 1, 4, 2, 1.5, 0⟩

/-- The same pose as `scenarioRow` with different class and track ids. -/
noncomputable def scenarioRowAlt : Row := ⟨5, 99, 10, 0, 1, 4, 2, 1.5, 0⟩

/-- Scenario B of the spec: a row with forward distance `x = 3`. -/
noncomputable def rowX3 : Row := ⟨0, 1, 3, 0, 0, 4, 2, 1.5, 0⟩

/-- Scenario B of the spec: a row with forward distance `x = 5`. -/
noncomputable def rowX5 : Row := ⟨0, 2, 5, 0, 0, 4, 2, 1.5, 0⟩

/-- A row with the excluded class marker inside the spatial envelope. -/
noncomputable def rowCls2a : Row := ⟨2, 3, 5, 0, 0, 4, 2, 1.5, 0⟩

/-- A row with the excluded class marker outside the spatial envelope. -/
noncomputable def rowCls2b : Row := ⟨2, 4, 100, 50, 0, 4, 2, 1.5, 0⟩

/-- A row whose box straddles the origin, so some corners sit at forward
coordinate below the 2-meter near guard. -/
noncomputable def rowNear : Row := ⟨0, 0, 0, 0, 0, 2, 2, 2, 0⟩

/-- Two rows with identical pose (hence identical computed distance) that
differ only in their track id. -/
noncomputable def rowTieA : Row := ⟨0, 1, 10, 0, 1, 4, 2, 1.5, 0⟩

/-- See `rowTieA`. -/
noncomputable def rowTieB : Row := ⟨0, 2, 10, 0, 1, 4, 2, 1.5, 0⟩

/-- A row whose nearest ground-plane corner is `(3, 4)`, at norm exactly 5. -/
noncomputable def rowNear5 : Row := ⟨0, 11, 4, 5, 1, 2, 2, 2, 0⟩

/-- A row whose nearest ground-plane corner is `(12, 16)`, at norm exactly 20. -/
noncomputable def rowFar20 : Row := ⟨0, 12, 13, 17, 1, 2, 2, 2, 0⟩

/-! ## Helper lemmas -/

lemma sum_cornerSigns (i : Fin 3) : ∑ j, cornerSigns i j = 0 := by
  fin_cases i <;>
    simp [cornerSigns, Fin.sum_univ_succ, Matrix.cons_val_zero, Matrix.cons_val_succ]

lemma sum_cornersLocal (r : Row) (i : Fin 3) : ∑ j, cornersLocal r i j = 0 := by
  simp only [cornersLocal, ← Finset.sum_mul, sum_cornerSigns, zero_mul]

/-! ## C1: the centroid of the 8 world-frame corners is the input center -/

/-- C1: for every track row, the centroid (mean) of the 8 world-frame corners
built by `Instance::Instance` equals the input center: rotation about the
box's own center followed by translation preserves the centroid, for every
center, every extents vector and every yaw. -/
theorem corners3D_centroid (r : Row) (i : Fin 3) :
    (∑ j, (mkInstance r).mCorners3D i j) / 8 = (mkInstance r).mXyzCenter i := by
  show (∑ j, corners3D r i j) / 8 = centerOf r i
  fin_cases i <;>
    simp [corners3D, centerOf, Finset.sum_add_distrib, Finset.sum_sub_distrib,
      ← Finset.mul_sum, sum_cornersLocal]

/-! ## C5: the distance field is the minimum ground-plane corner norm -/

/-- C5: for every constructed instance, `mDist` is the minimum over the 8
world-frame corners of the Euclidean norm of the corner's ground-plane
(x, y) coordinates; on Scenario A (`center=(10,0,1)`, `extents=(4,2,1.5)`,
`yaw=0`) it equals `sqrt((10-2)^2 + 1^2)`, which lies between 8.06 and
8.07. -/
theorem mDist_min_ground_norm :
    (∀ r : Row, (mkInstance r).mDist =
      Finset.univ.inf' Finset.univ_nonempty
        (fun j : Fin 8 => Real.sqrt
          ((mkInstance r).mCorners3D 0 j ^ 2 + (mkInstance r).mCorners3D 1 j ^ 2))) ∧
    (mkInstance scenarioRow).mDist = Real.sqrt ((10 - 2) ^ 2 + 1 ^ 2) ∧
    8.06 < (mkInstance scenarioRow).mDist ∧ (mkInstance scenarioRow).mDist < 8.07 := by
  have h65 : (mkInstance scenarioRow).mDist = Real.sqrt 65 := by
    show mDistOf scenarioRow = Real.sqrt 65
    apply le_antisymm
    · have h := Finset.inf'_le
        (fun j : Fin 8 =>
          Real.sqrt ((corners3D scenarioRow 0 j) ^ 2 + (corners3D scenarioRow 1 j) ^ 2))
        (Finset.mem_univ (0 : Fin 8))
      refine le_trans h ?_
      norm_num [corners3D, cornersLocal, cornerSigns, lwhOf, scenarioRow]
    · apply Finset.le_inf'
      intro j _
      fin_cases j <;>
        norm_num [corners3D, cornersLocal, cornerSigns, lwhOf, scenarioRow]
  refine ⟨fun r => rfl, by rw [h65]; norm_num, ?_, ?_⟩
  · rw [h65, show (8.06 : ℝ) = Real.sqrt (8.06 ^ 2) from
      (Real.sqrt_sq (by norm_num)).symm]
    exact Real.sqrt_lt_sqrt (by norm_num) (by norm_num)
  · rw [h65, show (8.07 : ℝ) = Real.sqrt (8.07 ^ 2) from
      (Real.sqrt_sq (by norm_num)).symm]
    exact Real.sqrt_lt_sqrt (by norm_num) (by norm_num)

/-- Witness for C1 at Scenario A's row, axis 0. -/
theorem corners3D_centroid_witness :
    (∑ j, (mkInstance scenarioRow).mCorners3D 0 j) / 8 =
      (mkInstance scenarioRow).mXyzCenter 0 :=
  corners3D_centroid scenarioRow 0

/-- Witness for C5: the Scenario A distance exceeds 8.06. -/
theorem mDist_min_ground_norm_witness :
    8.06 < (mkInstance scenarioRow).mDist :=
  mDist_min_ground_norm.2.2.1

/-! ## C6: fixed corner enumeration order and sign pattern -/

open Classical in
/-- C6: the 8 corners are enumerated with `sx` varying slowest and `sz`
fastest — corner index `j` decodes as `4·(sx>0) + 2·(sy>0) + (sz>0)` on the
constant sign matrix (so index `i` carries the same sign pattern in every
instance), and whenever the extents are nonnegative the corner at index 0
has the most-negative local offset along all three axes. -/
theorem corner_order_invariant (r : Row) :
    (∀ j : Fin 8,
      (j : ℕ) = (if 0 < cornerSigns 0 j then 4 else 0) +
        (if 0 < cornerSigns 1 j then 2 else 0) +
        (if 0 < cornerSigns 2 j then 1 else 0)) ∧
    (0 ≤ r.l ∧ 0 ≤ r.w ∧ 0 ≤ r.h →
      ∀ i : Fin 3, ∀ j : Fin 8, cornersLocal r i 0 ≤ cornersLocal r i j) := by
  constructor
  · intro j
    fin_cases j <;> norm_num [cornerSigns, Matrix.vecTail, Matrix.vecHead]
  · rintro ⟨hl, hw, hh⟩ i j
    fin_cases i <;> fin_cases j <;>
      simp only [cornersLocal, cornerSigns, lwhOf] <;>
      norm_num <;> linarith

/-- Witness for C6 at Scenario A's row: extents `(4, 2, 1.5)` are
nonnegative, and corner 0's local offset is below corner 4's on axis 0. -/
theorem corner_order_invariant_witness :
    cornersLocal scenarioRow 0 0 ≤ cornersLocal scenarioRow 0 4 :=
  (corner_order_invariant scenarioRow).2
    ⟨by norm_num [scenarioRow], by norm_num [scenarioRow], by norm_num [scenarioRow]⟩ 0 4

/-! ## C3: the region-of-interest filter -/

/-- C3: a raw row is dropped before instance construction iff its class id
equals the excluded marker 2, or its forward coordinate lies outside
[4, 40], or its lateral coordinate exceeds 10 in absolute value; the
surviving rows of a frame are exactly the input rows (in order) on which
the drop condition fails.  A row with `x = 3` is rejected, a row with
`x = 5` (class 0, `y = 0`) is kept, and rows with class id 2 are rejected
both inside and outside the spatial envelope. -/
theorem roi_filter_characterization :
    (∀ r : Row, roiDrop r ↔ ¬ (r.classId ≠ 2 ∧ 4 ≤ r.x ∧ r.x ≤ 40 ∧ |r.y| ≤ 10)) ∧
    (∀ rows : List Row, ∀ r : Row,
      r ∈ roiSurvivors rows ↔ r ∈ rows ∧ ¬ roiDrop r) ∧
    roiDrop rowX3 ∧ ¬ roiDrop rowX5 ∧ roiDrop rowCls2a ∧ roiDrop rowCls2b := by
  refine ⟨fun r => ?_, fun rows r => ?_, ?_, ?_, ?_, ?_⟩
  · simp only [roiDrop, not_and_or, not_le, not_not, ne_eq, not_lt]
  · simp [roiSurvivors]
  · norm_num [roiDrop, rowX3]
  · norm_num [roiDrop, rowX5]
  · norm_num [roiDrop, rowCls2a]
  · norm_num [roiDrop, rowCls2b]

/-- Witness for C3: the row with forward coordinate 3 is indeed dropped. -/
theorem roi_filter_characterization_witness : roiDrop rowX3 :=
  roi_filter_characterization.2.2.1

/-! ## C2: the visibility predicate -/

/-- C2: `isCornersInImage(imgW, imgH)` holds iff all 8 corners have their
projected `u` strictly inside `(0, imgW)`, their projected `v` strictly
inside `(0, imgH)`, and their world forward coordinate above 2; in
particular it fails whenever any single corner has forward coordinate at
most 2, for any image size. -/
theorem isCornersInImage_iff (r : Row) (imgW imgH : ℤ) :
    (isCornersInImage (mkInstance r) imgW imgH ↔
      ∀ j : Fin 8,
        0 < (mkInstance r).mCorners2D 0 j ∧ (mkInstance r).mCorners2D 0 j < imgW ∧
        0 < (mkInstance r).mCorners2D 1 j ∧ (mkInstance r).mCorners2D 1 j < imgH ∧
        2 < (mkInstance r).mCorners3D 0 j) ∧
    (∀ j : Fin 8, (mkInstance r).mCorners3D 0 j ≤ 2 →
      ¬ isCornersInImage (mkInstance r) imgW imgH) := by
  constructor
  · simp only [isCornersInImage, gt_iff_lt]
  · intro j hle hvis
    exact absurd (hvis j).2.2.2.2 (not_lt.mpr hle)

/-- Witness for C2: the box of `rowNear` has corner 0 at forward coordinate
-1 ≤ 2, so it is judged not visible in a 1280x480 image. -/
theorem isCornersInImage_iff_witness :
    ¬ isCornersInImage (mkInstance rowNear) 1280 480 :=
  (isCornersInImage_iff rowNear 1280 480).2 0
    (by norm_num [mkInstance, corners3D, cornersLocal, cornerSigns, lwhOf, rowNear])

/-! ## C9: geometry and visibility depend only on the pose fields -/

lemma corners3D_pose_congr (r1 r2 : Row) (hx : r1.x = r2.x) (hy : r1.y = r2.y)
    (hz : r1.z = r2.z) (hl : r1.l = r2.l) (hw : r1.w = r2.w) (hh : r1.h = r2.h)
    (hyaw : r1.yaw = r2.yaw) : corners3D r1 = corners3D r2 := by
  funext i j
  simp [corners3D, cornersLocal, lwhOf, hx, hy, hz, hl, hw, hh, hyaw]

lemma mDistOf_pose_congr (r1 r2 : Row) (hx : r1.x = r2.x) (hy : r1.y = r2.y)
    (hz : r1.z = r2.z) (hl : r1.l = r2.l) (hw : r1.w = r2.w) (hh : r1.h = r2.h)
    (hyaw : r1.yaw = r2.yaw) : mDistOf r1 = mDistOf r2 := by
  unfold mDistOf
  rw [corners3D_pose_congr r1 r2 hx hy hz hl hw hh hyaw]

/-- C9: the geometric outputs of construction — `mCorners3D`, `mCorners2D`,
`mDist` — and the verdict of `isCornersInImage` are functions of the pose
fields `(x, y, z, l, w, h, yaw)` alone: two rows that differ only in class
id and/or track id produce identical corners, distance and visibility. -/
theorem instance_pose_determined (r1 r2 : Row) (hx : r1.x = r2.x) (hy : r1.y = r2.y)
    (hz : r1.z = r2.z) (hl : r1.l = r2.l) (hw : r1.w = r2.w) (hh : r1.h = r2.h)
    (hyaw : r1.yaw = r2.yaw) :
    (mkInstance r1).mCorners3D = (mkInstance r2).mCorners3D ∧
    (mkInstance r1).mCorners2D = (mkInstance r2).mCorners2D ∧
    (mkInstance r1).mDist = (mkInstance r2).mDist ∧
    ∀ imgW imgH : ℤ, isCornersInImage (mkInstance r1) imgW imgH ↔
      isCornersInImage (mkInstance r2) imgW imgH := by
  have h3 : corners3D r1 = corners3D r2 :=
    corners3D_pose_congr r1 r2 hx hy hz hl hw hh hyaw
  have h2 : corners2D r1 = corners2D r2 := by
    funext i j
    simp only [corners2D, h3]
  refine ⟨h3, h2, mDistOf_pose_congr r1 r2 hx hy hz hl hw hh hyaw, fun imgW imgH => ?_⟩
  show (∀ j : Fin 8, corners2D r1 0 j > 0 ∧ _ ∧ _ ∧ _ ∧ corners3D r1 0 j > 2) ↔ _
  rw [show (mkInstance r1).mCorners2D = corners2D r1 from rfl] at *
  simp only [isCornersInImage, mkInstance, h2, h3]

/-- Witness for C9: Scenario A's row and the same pose under different class
and track ids yield the same computed distance. -/
theorem instance_pose_determined_witness :
    (mkInstance scenarioRow).mDist = (mkInstance scenarioRowAlt).mDist :=
  (instance_pose_determined scenarioRow scenarioRowAlt
    rfl rfl rfl rfl rfl rfl rfl).2.2.1

/-! ## C4: the distance sort is not guaranteed stable -/

/-- C4 counterexample exhibit: the contract of `std::sort` (sorted
permutation, nothing about ties) admits, for the two equal-distance
instances built from `rowTieA` and `rowTieB`, the output that reverses
their original order.  The two instances are distinguishable (their track
ids differ) and have exactly equal distance, so stability is not a
consequence of anything the code requests from `std::sort`. -/
theorem sort_admits_unstable_output :
    sortContract [mkInstance rowTieA, mkInstance rowTieB]
      [mkInstance rowTieB, mkInstance rowTieA] ∧
    (mkInstance rowTieA).mDist = (mkInstance rowTieB).mDist ∧
    (mkInstance rowTieA).mTrackId ≠ (mkInstance rowTieB).mTrackId := by
  have hd : (mkInstance rowTieA).mDist = (mkInstance rowTieB).mDist :=
    mDistOf_pose_congr rowTieA rowTieB rfl rfl rfl rfl rfl rfl rfl
  refine ⟨⟨List.Perm.swap _ _ _, ?_⟩, hd, ?_⟩
  · exact List.pairwise_pair.mpr (le_of_eq hd.symm)
  · show rowTieA.trackId ≠ rowTieB.trackId
    norm_num [rowTieA, rowTieB]

/-- Witness for C4's exhibit: the two tied instances have equal distance. -/
theorem sort_admits_unstable_output_witness :
    (mkInstance rowTieA).mDist = (mkInstance rowTieB).mDist :=
  sort_admits_unstable_output.2.1

/-! ## C8: the derived projection of the fixed calibration -/

lemma calibRT_det_ne_zero : CalibRT.det ≠ 0 := by
  rw [Matrix.det_succ_row_zero]
  norm_num [Fin.sum_univ_succ, CalibRT, Matrix.det_fin_three, Matrix.submatrix_apply,
    Fin.succAbove, Fin.lt_def, Fin.castSucc, Fin.castAdd, Fin.castLE]

/-- C8: the fixed extrinsic matrix `RT` is invertible (so the fatal
configuration-error branch for a non-invertible extrinsic never arises for
this calibration), the matrix `RT⁻¹` is a genuine two-sided inverse, the
derived projection `P` equals `K` times the first three rows of `RT⁻¹`, and
recomputing the projection from any right inverse of the same `RT` yields
the same `P` (the derivation is a pure function of `K` and `RT`). -/
theorem calib_projection_wellformed :
    CalibRT.det ≠ 0 ∧
    CalibRT * CalibRT⁻¹ = 1 ∧ CalibRT⁻¹ * CalibRT = 1 ∧
    CalibP = CalibK * (CalibRT⁻¹).submatrix Fin.castSucc id ∧
    ∀ B : Matrix (Fin 4) (Fin 4) ℝ, CalibRT * B = 1 →
      CalibK * B.submatrix Fin.castSucc id = CalibP := by
  have hu : IsUnit CalibRT.det := isUnit_iff_ne_zero.mpr calibRT_det_ne_zero
  refine ⟨calibRT_det_ne_zero, Matrix.mul_nonsing_inv _ hu,
    Matrix.nonsing_inv_mul _ hu, rfl, fun B hB => ?_⟩
  rw [← Matrix.inv_eq_right_inv hB]
  rfl

/-- Witness for C8: recomputing the projection from the right inverse
`RT⁻¹` itself indeed returns `P`. -/
theorem calib_projection_wellformed_witness :
    CalibK * (CalibRT⁻¹).submatrix Fin.castSucc id = CalibP :=
  calib_projection_wellformed.2.2.2.2 _ calib_projection_wellformed.2.1

/-! ## C10: mask pixels are 0 or the marker; untouched pixels stay 0 -/

lemma maskFold_eq_or_marker (l : List Instance) (m : Pix → ℝ) (p : Pix) :
    l.foldl (fun acc inst => getMask inst acc) m p = m p ∨
    l.foldl (fun acc inst => getMask inst acc) m p = maskMarker := by
  induction l generalizing m with
  | nil => exact Or.inl rfl
  | cons a t ih =>
    rw [List.foldl_cons]
    rcases ih (getMask a m) with h | h
    · rw [h, getMask]
      by_cases hp : p ∈ fillSet a
      · simp [hp]
      · simp [hp]
    · exact Or.inr h

lemma maskFold_untouched (l : List Instance) :
    ∀ (m : Pix → ℝ) (p : Pix), (∀ inst ∈ l, p ∉ fillSet inst) →
      l.foldl (fun acc inst => getMask inst acc) m p = m p := by
  induction l with
  | nil => intro m p _; rfl
  | cons a t ih =>
    intro m p h
    rw [List.foldl_cons,
      ih (getMask a m) p (fun inst hi => h inst (List.mem_cons_of_mem a hi))]
    simp [getMask, h a (List.mem_cons_self a t)]

/-- C10: starting from the all-zero canvas, rasterization only ever writes
the constant marker 1.0, so after any frame every mask pixel is 0 or 1;
every pixel outside all surviving instances' filled hulls stays 0, and an
empty survivor list leaves the whole mask zero. -/
theorem mask_zero_or_marker (l : List Instance) (p : Pix) :
    (maskAfter l p = 0 ∨ maskAfter l p = 1) ∧
    ((∀ inst ∈ l, p ∉ fillSet inst) → maskAfter l p = 0) ∧
    maskAfter [] p = 0 := by
  refine ⟨maskFold_eq_or_marker l _ p, fun h => maskFold_untouched l _ p h, rfl⟩

/-- Witness for C10: with no surviving instances, pixel (0, 0) is 0. -/
theorem mask_zero_or_marker_witness : maskAfter [] ((0 : ℤ), (0 : ℤ)) = 0 :=
  (mask_zero_or_marker [] ((0 : ℤ), (0 : ℤ))).2.1 (by simp)

/-! ## C7: rasterization order and last-write-wins overlap -/

lemma mDistOf_rowNear5 : mDistOf rowNear5 = 5 := by
  have h5 : (5 : ℝ) = Real.sqrt 25 := by
    rw [show (25 : ℝ) = 5 ^ 2 by norm_num, Real.sqrt_sq (by norm_num)]
  apply le_antisymm
  · have h := Finset.inf'_le
      (fun j : Fin 8 =>
        Real.sqrt ((corners3D rowNear5 0 j) ^ 2 + (corners3D rowNear5 1 j) ^ 2))
      (Finset.mem_univ (0 : Fin 8))
    refine le_trans h ?_
    rw [h5]
    norm_num [corners3D, cornersLocal, cornerSigns, lwhOf, rowNear5]
  · rw [h5]
    apply Finset.le_inf'
    intro j _
    fin_cases j <;> norm_num [corners3D, cornersLocal, cornerSigns, lwhOf, rowNear5]

lemma mDistOf_rowFar20 : mDistOf rowFar20 = 20 := by
  have h20 : (20 : ℝ) = Real.sqrt 400 := by
    rw [show (400 : ℝ) = 20 ^ 2 by norm_num, Real.sqrt_sq (by norm_num)]
  apply le_antisymm
  · have h := Finset.inf'_le
      (fun j : Fin 8 =>
        Real.sqrt ((corners3D rowFar20 0 j) ^ 2 + (corners3D rowFar20 1 j) ^ 2))
      (Finset.mem_univ (0 : Fin 8))
    refine le_trans h ?_
    rw [h20]
    norm_num [corners3D, cornersLocal, cornerSigns, lwhOf, rowFar20]
  · rw [h20]
    apply Finset.le_inf'
    intro j _
    fin_cases j <;> norm_num [corners3D, cornersLocal, cornerSigns, lwhOf, rowFar20]

open Classical in
/-- C7: for two surviving instances at distances 5 and 20, the ascending
sort puts the distance-5 instance first (any output satisfying the sort
contract on the pair is exactly near-then-far), the mask fold processes
that order with a per-pixel overwrite, and the final value at every pixel
is decided first by the farther instance's fill: in the overlap both fills
apply and the pixel holds the marker written by the farther (last-written)
instance. -/
theorem mask_overlap_far_wins (a b : Instance) (p : Pix)
    (ha : a.mDist = 5) (hb : b.mDist = 20) :
    (maskAfter [a, b] p =
      if p ∈ fillSet b then maskMarker
      else if p ∈ fillSet a then maskMarker else 0) ∧
    ∀ out : List Instance, sortContract [b, a] out → out = [a, b] := by
  constructor
  · show getMask b (getMask a (fun _ => 0)) p = _
    by_cases hpb : p ∈ fillSet b
    · simp [getMask, hpb]
    · by_cases hpa : p ∈ fillSet a <;> simp [getMask, hpa, hpb]
  · rintro out ⟨hperm, hsort⟩
    have hlen : out.length = 2 := by simpa using hperm.length_eq.symm
    obtain ⟨u, v, rfl⟩ := List.length_eq_two.mp hlen
    have hu : u ∈ [b, a] := hperm.mem_iff.mpr (List.mem_cons_self u [v])
    rcases List.mem_pair.mp hu with hub | hua
    · exfalso
      have h1 : [a].Perm [v] := by
        rw [hub] at hperm
        exact hperm.cons_inv
      have hva : a = v := by simpa using List.singleton_perm.mp h1
      have hle : u.mDist ≤ v.mDist := (List.pairwise_cons.mp hsort).1 v (by simp)
      rw [hub, hb, ← hva, ha] at hle
      norm_num at hle
    · have h1 : [a, b].Perm [a, v] := by
        rw [hua] at hperm
        exact (List.Perm.swap b a []).trans hperm
      have hvb : b = v := by simpa using List.singleton_perm.mp h1.cons_inv
      rw [hua, ← hvb]

open Classical in
/-- Witness for C7: the instances of `rowNear5` and `rowFar20` have
distances exactly 5 and 20, and the mask after rasterizing them near-to-far
is, at pixel (0, 0), decided first by the farther instance's fill. -/
theorem mask_overlap_far_wins_witness :
    maskAfter [mkInstance rowNear5, mkInstance rowFar20] ((0 : ℤ), (0 : ℤ)) =
      if ((0 : ℤ), (0 : ℤ)) ∈ fillSet (mkInstance rowFar20) then maskMarker
      else if ((0 : ℤ), (0 : ℤ)) ∈ fillSet (mkInstance rowNear5) then maskMarker
      else 0 :=
  (mask_overlap_far_wins (mkInstance rowNear5) (mkInstance rowFar20) _
    mDistOf_rowNear5 mDistOf_rowFar20).1

end Taillight

